import Mathlib

/-!
Verification development for the Bundle Adjustment orchestration layer of
the AliceVision/openMVG `Bundle_Adjustment_Ceres` class
(`src/openMVG/sfm/sfm_data_BA_ceres.hpp`).

The repository ships only the header declaring `IntrinsicsToCostFunction`,
`Adjust`, `adjustPartialReconstruction`, `addPosesToCeresProblem`,
`addIntrinsicsToCeresProblem`, `solveBA`, `updateCameraPoses` and
`updateCameraIntrinsics`; the definitions below embed those operations,
modelling each missing body from the specification.  Scalars are modelled
as rationals, associative lists stand in for `Hash_Map` / `std::map`, and
the external Ceres solver is an abstract oracle supplied by the caller.
-/

namespace BACeres

abbrev IndexT := Nat

abbrev Hash_Map (α β : Type) := List (α × β)

abbrev Vec2 := ℚ × ℚ

abbrev Vec3 := ℚ × ℚ × ℚ

/-- A camera pose: rotation serialized as angle-axis, plus a center. -/
structure Pose where
  rotation : Vec3
  center : Vec3
  deriving DecidableEq, Repr

/-- Modelled from the spec: the closed set of supported camera intrinsic
model variants (simple pinhole, pinhole with radial distortion terms,
Brown, fisheye), plus an `unknown` variant standing for an intrinsic type
with no known residual implementation. -/
inductive IntrinsicModel where
  | pinhole
  | pinholeRadial1
  | pinholeRadial3
  | pinholeBrown
  | fisheye
  | unknown
  deriving DecidableEq, Repr

/-- An intrinsic: a model variant plus a parameter vector whose length and
semantics depend on the variant. -/
structure Intrinsic where
  model : IntrinsicModel
  params : List ℚ
  deriving DecidableEq, Repr

/-- A view binds an image to a pose id and an intrinsic id. -/
structure View where
  id_pose : IndexT
  id_intrinsic : IndexT
  deriving DecidableEq, Repr

/-- A landmark: a 3D point with observations keyed by view id. -/
structure Landmark where
  X : Vec3
  obs : Hash_Map IndexT Vec2
  deriving DecidableEq, Repr

/-- Modelled from the spec: the reconstruction graph used by partial
refinement; it marks the pose and intrinsic ids touched by the most recent
incremental step. -/
structure ReconstructionGraph where
  markedPoses : List IndexT
  markedIntrinsics : List IndexT
  deriving DecidableEq, Repr

def ReconstructionGraph.isEmpty (g : ReconstructionGraph) : Bool :=
  g.markedPoses.isEmpty && g.markedIntrinsics.isEmpty

abbrev Poses := Hash_Map IndexT Pose

abbrev Intrinsics := Hash_Map IndexT Intrinsic

/-- The reconstruction data handled by bundle adjustment (poses,
intrinsics, views, landmarks with observations, and the reconstruction
graph consulted by partial refinement). -/
structure SfM_Data where
  views : Hash_Map IndexT View
  poses : Poses
  intrinsics : Intrinsics
  landmarks : Hash_Map IndexT Landmark
  graph : ReconstructionGraph
  deriving DecidableEq, Repr

/-- Modelled from the spec: the `BA_Refine` option set selecting which
categories are optimized (poses / focal / distortion / principal point /
structure), independently toggleable. -/
structure BA_Refine where
  refinePoses : Bool
  refineFocal : Bool
  refineDistortion : Bool
  refinePrincipalPoint : Bool
  refineStructure : Bool
  deriving DecidableEq, Repr

def BA_REFINE_NONE : BA_Refine := ⟨false, false, false, false, false⟩

def BA_REFINE_ALL : BA_Refine := ⟨true, true, true, true, true⟩

def BA_Refine.refineIntrinsics (r : BA_Refine) : Bool :=
  r.refineFocal || r.refineDistortion || r.refinePrincipalPoint

/-- A reprojection-error cost function produced by the residual factory
(kept abstract: it records the observation it penalizes). -/
structure CostFunction where
  observation : Vec2
  deriving DecidableEq, Repr

/-- Modelled from the spec: `IntrinsicsToCostFunction` creates the
appropriate cost functor for the provided intrinsic model; construction
fails (no cost function) when the variant has no known residual
implementation. -/
def IntrinsicsToCostFunction (intrinsic : Intrinsic) (observation : Vec2) :
    Option CostFunction :=
  match intrinsic.model with
  | IntrinsicModel.unknown => none
  | _ => some ⟨observation⟩

/-- Associative lookup, the shallow stand-in for `Hash_Map::find`. -/
def findVal {α : Type} (id : IndexT) : Hash_Map IndexT α → Option α
  | [] => none
  | kv :: l => if kv.1 = id then some kv.2 else findVal id l

/-- Pose serialization: angle-axis rotation then center, six scalars. -/
def poseToParams (p : Pose) : List ℚ :=
  [p.rotation.1, p.rotation.2.1, p.rotation.2.2,
   p.center.1, p.center.2.1, p.center.2.2]

/-- Pose deserialization, inverse of `poseToParams`. -/
def poseFromParams : List ℚ → Option Pose
  | [a, b, c, x, y, z] => some ⟨(a, b, c), (x, y, z)⟩
  | _ => none

/-- Modelled from the spec: refinement mode — full refinement, or partial
refinement restricted by a reconstruction graph. -/
inductive RefineMode where
  | full
  | restricted (graph : ReconstructionGraph)

/-- Modelled from the spec: a pose parameter block is constant when the
pose category flag is off, or when partial-refinement mode is active and
the graph does not mark this pose id as touched. -/
def poseIsConstant (mode : RefineMode) (refineOptions : BA_Refine)
    (id : IndexT) : Bool :=
  !refineOptions.refinePoses ||
    (match mode with
     | RefineMode.full => false
     | RefineMode.restricted g => if id ∈ g.markedPoses then false else true)

/-- Modelled from the spec: an intrinsic parameter block is constant when
no intrinsic category flag is on, or when partial-refinement mode is
active and the graph does not mark this intrinsic id as touched. -/
def intrinsicIsConstant (mode : RefineMode) (refineOptions : BA_Refine)
    (id : IndexT) : Bool :=
  !refineOptions.refineIntrinsics ||
    (match mode with
     | RefineMode.full => false
     | RefineMode.restricted g =>
         if id ∈ g.markedIntrinsics then false else true)

/-- One residual block: a landmark observed through a pose and an
intrinsic, with its reprojection cost function. -/
structure ResidualBlock where
  id_landmark : IndexT
  id_pose : IndexT
  id_intrinsic : IndexT
  cost : CostFunction
  deriving DecidableEq, Repr

/-- Modelled from the spec: turn one observation of a landmark into a
residual block; the observation is dropped (`none`) when its view, the
view's pose id or intrinsic id is unresolvable, or when the residual
factory has no implementation for the intrinsic variant. -/
def obsToResidual (data : SfM_Data) (lmId : IndexT) (ov : IndexT × Vec2) :
    Option ResidualBlock :=
  match findVal ov.1 data.views with
  | none => none
  | some view =>
    match findVal view.id_pose data.poses with
    | none => none
    | some _ =>
      match findVal view.id_intrinsic data.intrinsics with
      | none => none
      | some intr =>
        match IntrinsicsToCostFunction intr ov.2 with
        | none => none
        | some cf => some ⟨lmId, view.id_pose, view.id_intrinsic, cf⟩

/-- Modelled from the spec: all residual blocks of the problem — one per
valid observation of each landmark, invalid observations silently
dropped. -/
def residualBlocks (data : SfM_Data) : List ResidualBlock :=
  data.landmarks.flatMap (fun il => il.2.obs.filterMap (obsToResidual data il.1))

/-- Modelled from the spec: `addPosesToCeresProblem` serializes each pose
into a parameter vector, returning the pose id to parameter-vector
mapping. -/
def addPosesToCeresProblem (poses : Poses) : Hash_Map IndexT (List ℚ) :=
  poses.map (fun ip => (ip.1, poseToParams ip.2))

/-- Modelled from the spec: `addIntrinsicsToCeresProblem` serializes each
intrinsic per its variant layout, returning the intrinsic id to
parameter-vector mapping. -/
def addIntrinsicsToCeresProblem (data : SfM_Data) : Hash_Map IndexT (List ℚ) :=
  data.intrinsics.map (fun ii => (ii.1, ii.2.params))

/-- The assembled optimization problem: residual blocks plus parameter
blocks (id, values, constant flag) for poses, intrinsics and structure. -/
structure CeresProblem where
  residuals : List ResidualBlock
  poseBlocks : List (IndexT × List ℚ × Bool)
  intrinsicBlocks : List (IndexT × List ℚ × Bool)
  structureBlocks : List (IndexT × Vec3 × Bool)

/-- Modelled from the spec: assemble the problem — residual blocks from
surviving observations, parameter blocks from the extraction mappings,
with the fixity policy applied per block. -/
def buildProblem (data : SfM_Data) (refineOptions : BA_Refine)
    (mode : RefineMode) : CeresProblem :=
  { residuals := residualBlocks data
    poseBlocks :=
      (addPosesToCeresProblem data.poses).map
        (fun iv => (iv.1, iv.2, poseIsConstant mode refineOptions iv.1))
    intrinsicBlocks :=
      (addIntrinsicsToCeresProblem data).map
        (fun iv => (iv.1, iv.2, intrinsicIsConstant mode refineOptions iv.1))
    structureBlocks :=
      data.landmarks.map
        (fun il => (il.1, il.2.X, !refineOptions.refineStructure)) }

/-- Number of free (non-constant) parameter blocks of a problem. -/
def CeresProblem.freeBlockCount (p : CeresProblem) : Nat :=
  (p.poseBlocks.filter (fun b => !b.2.2)).length +
  (p.intrinsicBlocks.filter (fun b => !b.2.2)).length +
  (p.structureBlocks.filter (fun b => !b.2.2)).length

/-- Modelled from the spec: a problem is degenerate when, after filtering,
it has zero residual blocks or zero free parameter blocks. -/
def CeresProblem.degenerate (p : CeresProblem) : Bool :=
  p.residuals.isEmpty || p.freeBlockCount == 0

/-- A solver solution: optimized values per parameter-block id (the solver
mutates free blocks in place; constant blocks are held by the problem). -/
structure Solution where
  poseValues : IndexT → List ℚ
  intrinsicValues : IndexT → List ℚ
  structureValues : IndexT → Vec3

/-- The external Ceres solver, kept abstract: it may succeed with a
solution or report numerical failure (`none`). -/
abbrev Solver := CeresProblem → Option Solution

/-- Modelled from the spec: `solveBA` refuses a degenerate problem without
invoking the solver, and otherwise reports the external solver outcome. -/
def solveBA (solver : Solver) (problem : CeresProblem) : Option Solution :=
  if problem.degenerate then none else solver problem

/-- Post-solve pose parameter vectors: free blocks take the solver's
values, constant blocks keep the extracted values. -/
def solvedPoseParams (problem : CeresProblem) (sol : Solution) :
    Hash_Map IndexT (List ℚ) :=
  problem.poseBlocks.map
    (fun b => (b.1, if b.2.2 then b.2.1 else sol.poseValues b.1))

/-- Post-solve intrinsic parameter vectors. -/
def solvedIntrinsicParams (problem : CeresProblem) (sol : Solution) :
    Hash_Map IndexT (List ℚ) :=
  problem.intrinsicBlocks.map
    (fun b => (b.1, if b.2.2 then b.2.1 else sol.intrinsicValues b.1))

/-- Post-solve structure positions. -/
def solvedStructureParams (problem : CeresProblem) (sol : Solution) :
    Hash_Map IndexT Vec3 :=
  problem.structureBlocks.map
    (fun b => (b.1, if b.2.2 then b.2.1 else sol.structureValues b.1))

/-- Modelled from the spec: `updateCameraPoses` deserializes each mapped
parameter vector back into the authoritative pose representation and
overwrites that pose. -/
def updateCameraPoses (map_poses : Hash_Map IndexT (List ℚ))
    (poses : Poses) : Poses :=
  poses.map
    (fun ip =>
      (ip.1,
       match findVal ip.1 map_poses with
       | some v => (poseFromParams v).getD ip.2
       | none => ip.2))

/-- Modelled from the spec: `updateCameraIntrinsics` writes each mapped
parameter vector back into the intrinsic of the same id (the variant is
unchanged, only the parameter vector is overwritten). -/
def updateCameraIntrinsics (map_intrinsics : Hash_Map IndexT (List ℚ))
    (intrinsics : Intrinsics) : Intrinsics :=
  intrinsics.map
    (fun ii =>
      (ii.1,
       match findVal ii.1 map_intrinsics with
       | some v => { ii.2 with params := v }
       | none => ii.2))

/-- Modelled from the spec: write optimized landmark positions back. -/
def updateStructure (map_structure : Hash_Map IndexT Vec3)
    (landmarks : Hash_Map IndexT Landmark) : Hash_Map IndexT Landmark :=
  landmarks.map
    (fun il =>
      (il.1,
       match findVal il.1 map_structure with
       | some X => { il.2 with X := X }
       | none => il.2))

/-- Modelled from the spec: the shared orchestration state machine of both
entry points — extract and build, refuse degenerate problems, solve, and
integrate results only on success; with empty refine options the call
refines nothing and trivially succeeds as a no-op. -/
def AdjustWith (solver : Solver) (data : SfM_Data)
    (refineOptions : BA_Refine) (mode : RefineMode) : Bool × SfM_Data :=
  if refineOptions = BA_REFINE_NONE then (true, data)
  else
    match solveBA solver (buildProblem data refineOptions mode) with
    | none => (false, data)
    | some sol =>
      (true,
       { data with
         poses :=
           updateCameraPoses
             (solvedPoseParams (buildProblem data refineOptions mode) sol)
             data.poses
         intrinsics :=
           updateCameraIntrinsics
             (solvedIntrinsicParams (buildProblem data refineOptions mode) sol)
             data.intrinsics
         landmarks :=
           updateStructure
             (solvedStructureParams (buildProblem data refineOptions mode) sol)
             data.landmarks })

/-- Modelled from the spec: `Adjust` — full-refinement entry point. -/
def Adjust (solver : Solver) (data : SfM_Data)
    (refineOptions : BA_Refine) : Bool × SfM_Data :=
  AdjustWith solver data refineOptions RefineMode.full

/-- The header declares `Adjust` with default argument
`refineOptions = BA_REFINE_ALL`; this is the defaulted call. -/
def AdjustDefault (solver : Solver) (data : SfM_Data) : Bool × SfM_Data :=
  Adjust solver data BA_REFINE_ALL

/-- Modelled from the spec: `adjustPartialReconstruction` adjusts
parameters according to the reconstruction graph, or refines everything
if the graph is empty. -/
def adjustPartialReconstruction (solver : Solver) (data : SfM_Data) :
    Bool × SfM_Data :=
  if data.graph.isEmpty then
    AdjustWith solver data BA_REFINE_ALL RefineMode.full
  else
    AdjustWith solver data BA_REFINE_ALL (RefineMode.restricted data.graph)

/-- An observation is resolvable when its view exists and the view's pose
id and intrinsic id both resolve in the provided sets. -/
def obsResolvable (data : SfM_Data) (ov : IndexT × Vec2) : Bool :=
  match findVal ov.1 data.views with
  | none => false
  | some view =>
      (findVal view.id_pose data.poses).isSome &&
      (findVal view.id_intrinsic data.intrinsics).isSome

/-- An observation has a constructible cost function unless its resolved
intrinsic variant has no known residual implementation. -/
def obsHasCost (data : SfM_Data) (ov : IndexT × Vec2) : Bool :=
  match findVal ov.1 data.views with
  | none => true
  | some view =>
      match findVal view.id_intrinsic data.intrinsics with
      | none => true
      | some intr => (IntrinsicsToCostFunction intr ov.2).isSome

/-- Remove from every landmark the observations failing predicate `q`. -/
def filterObsData (data : SfM_Data) (q : IndexT × Vec2 → Bool) : SfM_Data :=
  { data with
    landmarks :=
      data.landmarks.map
        (fun il => (il.1, { il.2 with obs := il.2.obs.filter q })) }

/-- The reconstruction with unresolvable observations removed. -/
def dropUnresolvable (data : SfM_Data) : SfM_Data :=
  filterObsData data (obsResolvable data)

/-- The reconstruction with unsupported-model observations removed. -/
def dropUnsupported (data : SfM_Data) : SfM_Data :=
  filterObsData data (obsHasCost data)

/-- A solver oracle that always reports numerical failure. -/
def noSolver : Solver := fun _ => none

/-- A fixed concrete solution used by the always-succeeding oracle. -/
def demoSolution : Solution :=
  ⟨fun _ => [1, 1, 1, 1, 1, 1], fun _ => [2, 2, 2], fun _ => (3, 3, 3)⟩

/-- A solver oracle that always succeeds with `demoSolution`. -/
def yesSolver : Solver := fun _ => some demoSolution

/-- A reconstruction with no poses, intrinsics, views or landmarks. -/
def emptyData : SfM_Data := ⟨[], [], [], [], ⟨[], []⟩⟩

def demoPose : Pose := ⟨(0, 0, 0), (0, 0, 0)⟩

def demoPose1 : Pose := ⟨(0, 0, 0), (1, 0, 0)⟩

def demoIntrinsic : Intrinsic := ⟨IntrinsicModel.pinhole, [1, 0, 0]⟩

/-- A one-view, one-pose, one-intrinsic, one-landmark reconstruction with
an empty reconstruction graph. -/
def demoData : SfM_Data :=
  ⟨[(0, ⟨0, 0⟩)], [(0, demoPose)], [(0, demoIntrinsic)],
   [(0, ⟨(0, 0, 1), [(0, (0, 0))]⟩)], ⟨[], []⟩⟩

/-- A two-pose reconstruction whose graph marks only pose id 1 and
intrinsic id 0 as touched. -/
def demoDataGraph : SfM_Data :=
  ⟨[(0, ⟨0, 0⟩), (1, ⟨1, 0⟩)],
   [(0, demoPose), (1, demoPose1)],
   [(0, demoIntrinsic)],
   [(0, ⟨(0, 0, 1), [(0, (0, 0)), (1, (1, 0))]⟩)],
   ⟨[1], [0]⟩⟩

/-- `demoData` with one extra observation whose view id 7 resolves to no
view (hence to no pose or intrinsic). -/
def demoDataBadObs : SfM_Data :=
  ⟨[(0, ⟨0, 0⟩)], [(0, demoPose)], [(0, demoIntrinsic)],
   [(0, ⟨(0, 0, 1), [(0, (0, 0)), (7, (1, 1))]⟩)], ⟨[], []⟩⟩

/-- `demoData` with a second view whose intrinsic (id 1) has the
`unknown` model variant, and an observation through that view. -/
def demoDataUnknown : SfM_Data :=
  ⟨[(0, ⟨0, 0⟩), (1, ⟨0, 1⟩)],
   [(0, demoPose)],
   [(0, demoIntrinsic), (1, ⟨IntrinsicModel.unknown, [5]⟩)],
   [(0, ⟨(0, 0, 1), [(0, (0, 0)), (1, (2, 2))]⟩)], ⟨[], []⟩⟩

/-! ## Helper lemmas -/

theorem findVal_of_mem_nodup {α : Type} {id : IndexT} {a : α} :
    ∀ {l : Hash_Map IndexT α}, (l.map Prod.fst).Nodup → (id, a) ∈ l →
      findVal id l = some a := by
  intro l
  induction l with
  | nil => intro _ hmem; cases hmem
  | cons kv t ih =>
    intro hnd hmem
    rw [List.map_cons, List.nodup_cons] at hnd
    rcases List.mem_cons.mp hmem with h | h
    · rw [findVal, if_pos (by rw [← h]), ← h]
    · have hne : kv.1 ≠ id := by
        intro he
        exact hnd.1 (he ▸ List.mem_map_of_mem Prod.fst h)
      rw [findVal, if_neg hne]
      exact ih hnd.2 h

theorem findVal_map_assoc {α β : Type} {id : IndexT} {a : α}
    (g : IndexT × α → β) {l : Hash_Map IndexT α}
    (hnd : (l.map Prod.fst).Nodup) (hmem : (id, a) ∈ l) :
    findVal id (l.map (fun ip => (ip.1, g ip))) = some (g (id, a)) := by
  apply findVal_of_mem_nodup
  · rw [List.map_map]
    exact hnd
  · exact List.mem_map_of_mem _ hmem

theorem findVal_isSome_mem {α : Type} {id : IndexT} :
    ∀ {l : Hash_Map IndexT α}, (findVal id l).isSome = true →
      id ∈ l.map Prod.fst := by
  intro l
  induction l with
  | nil => intro h; simp [findVal] at h
  | cons kv t ih =>
    intro h
    rw [findVal] at h
    by_cases he : kv.1 = id
    · rw [List.map_cons, he]
      exact List.mem_cons_self _ _
    · rw [if_neg he] at h
      rw [List.map_cons]
      exact List.mem_cons_of_mem _ (ih h)

theorem poseFromParams_poseToParams (p : Pose) :
    poseFromParams (poseToParams p) = some p := by
  obtain ⟨⟨a, b, c⟩, ⟨x, y, z⟩⟩ := p
  rfl

theorem filterMap_filter_of_none {α β : Type} (f : α → Option β)
    (q : α → Bool) :
    ∀ l : List α, (∀ o ∈ l, q o = false → f o = none) →
      (l.filter q).filterMap f = l.filterMap f := by
  intro l
  induction l with
  | nil => intro _; rfl
  | cons x t ih =>
    intro h
    rw [List.filter_cons]
    by_cases hq : q x = true
    · rw [if_pos (by simp [hq]), List.filterMap_cons, List.filterMap_cons,
        ih (fun o ho hof => h o (List.mem_cons_of_mem _ ho) hof)]
    · have hq0 : q x = false := by simpa using hq
      rw [if_neg (by simp [hq0]), List.filterMap_cons,
        h x (List.mem_cons_self _ _) hq0]
      exact ih (fun o ho hof => h o (List.mem_cons_of_mem _ ho) hof)

/-! ## Claim theorems -/

/-- C2: for every reconstruction, `Adjust` with an empty `BA_Refine` set
(no category flags enabled) returns success and leaves the reconstruction
— every pose and every intrinsic — unchanged. -/
theorem adjust_refine_none_noop (solver : Solver) (data : SfM_Data) :
    Adjust solver data BA_REFINE_NONE = (true, data) := by
  simp [Adjust, AdjustWith]

/-- C1: whenever `Adjust` returns failure — for any solver outcome — the
reconstruction is exactly as it was before the call; and on success the
poses and intrinsics are produced only by the result-integration step
(`updateCameraPoses` / `updateCameraIntrinsics`). -/
theorem adjust_failure_no_mutation (solver : Solver) (data : SfM_Data)
    (refineOptions : BA_Refine) :
    ((Adjust solver data refineOptions).1 = false →
      (Adjust solver data refineOptions).2 = data)
    ∧ ((Adjust solver data refineOptions).1 = true →
        ∃ mp mi ms,
          (Adjust solver data refineOptions).2 =
            { data with
              poses := updateCameraPoses mp data.poses
              intrinsics := updateCameraIntrinsics mi data.intrinsics
              landmarks := updateStructure ms data.landmarks }) := by
  unfold Adjust AdjustWith
  by_cases hr : refineOptions = BA_REFINE_NONE
  · rw [if_pos hr]
    constructor
    · intro h; cases h
    · intro _
      refine ⟨[], [], [], ?_⟩
      simp [updateCameraPoses, updateCameraIntrinsics, updateStructure,
        findVal]
  · rw [if_neg hr]
    cases hs : solveBA solver (buildProblem data refineOptions RefineMode.full) with
    | none =>
      constructor
      · intro _; rfl
      · intro h; cases h
    | some sol =>
      constructor
      · intro h; cases h
      · intro _; exact ⟨_, _, _, rfl⟩

/-- Witness for C1: a degenerate input makes `Adjust` fail even under an
always-succeeding solver and the reconstruction is returned unchanged; on
a well-formed input `Adjust` succeeds and the result is produced by the
two write-back operations. -/
theorem adjust_failure_no_mutation_witness :
    (Adjust yesSolver emptyData BA_REFINE_ALL).2 = emptyData
    ∧ ∃ mp mi ms,
        (Adjust yesSolver demoData BA_REFINE_ALL).2 =
          { demoData with
            poses := updateCameraPoses mp demoData.poses
            intrinsics := updateCameraIntrinsics mi demoData.intrinsics
            landmarks := updateStructure ms demoData.landmarks } :=
  ⟨(adjust_failure_no_mutation yesSolver emptyData BA_REFINE_ALL).1 (by decide),
   (adjust_failure_no_mutation yesSolver demoData BA_REFINE_ALL).2 (by decide)⟩

/-- C3: when the assembled problem is degenerate (zero residual blocks or
zero free parameter blocks) and at least one refine category is enabled,
`Adjust` returns failure with no mutation, and does so without consulting
the solver: any two solvers give the identical outcome. -/
theorem degenerate_failure_no_solver (solver other : Solver)
    (data : SfM_Data) (refineOptions : BA_Refine)
    (h1 : refineOptions ≠ BA_REFINE_NONE)
    (h2 : (buildProblem data refineOptions RefineMode.full).degenerate = true) :
    Adjust solver data refineOptions = (false, data)
    ∧ Adjust solver data refineOptions = Adjust other data refineOptions := by
  have hmain : ∀ s : Solver, Adjust s data refineOptions = (false, data) := by
    intro s
    unfold Adjust AdjustWith
    rw [if_neg h1]
    rw [solveBA, if_pos h2]
  exact ⟨hmain solver, (hmain solver).trans (hmain other).symm⟩

/-- Witness for C3: the empty reconstruction yields a degenerate problem;
`Adjust` fails on it without mutation even under an always-succeeding
solver, and the outcome is solver-independent. -/
theorem degenerate_failure_no_solver_witness :
    Adjust yesSolver emptyData BA_REFINE_ALL = (false, emptyData)
    ∧ Adjust yesSolver emptyData BA_REFINE_ALL =
        Adjust noSolver emptyData BA_REFINE_ALL :=
  degenerate_failure_no_solver yesSolver noSolver emptyData BA_REFINE_ALL
    (by decide) (by decide)

/-- C10: calling `Adjust` without supplying refine options uses the
header's default argument `BA_REFINE_ALL`: the defaulted call coincides
with `Adjust` at `BA_REFINE_ALL`, that option set marks every pose and
intrinsic block free, it differs from the empty option set, and on a
concrete reconstruction the defaulted call moves parameters where the
empty option set would refine nothing. -/
theorem adjust_default_refine_all (solver : Solver) (data : SfM_Data) :
    AdjustDefault solver data = Adjust solver data BA_REFINE_ALL
    ∧ (∀ id, poseIsConstant RefineMode.full BA_REFINE_ALL id = false)
    ∧ (∀ id, intrinsicIsConstant RefineMode.full BA_REFINE_ALL id = false)
    ∧ BA_REFINE_ALL ≠ BA_REFINE_NONE
    ∧ AdjustDefault yesSolver demoData ≠
        Adjust yesSolver demoData BA_REFINE_NONE := by
  refine ⟨rfl, fun id => rfl, fun id => rfl, by decide, by decide⟩

/-- A pose whose parameter block is marked constant survives the solve
and the write-back numerically intact: after integration the pose stored
under its id is the original pose. -/
theorem findVal_updateCameraPoses_constant (data : SfM_Data)
    (refineOptions : BA_Refine) (mode : RefineMode) (sol : Solution)
    {id : IndexT} {p : Pose}
    (hnd : (data.poses.map Prod.fst).Nodup)
    (hmem : (id, p) ∈ data.poses)
    (hconst : poseIsConstant mode refineOptions id = true) :
    findVal id
      (updateCameraPoses
        (solvedPoseParams (buildProblem data refineOptions mode) sol)
        data.poses) = some p := by
  have hEq : solvedPoseParams (buildProblem data refineOptions mode) sol =
      data.poses.map (fun ip =>
        (ip.1,
         if poseIsConstant mode refineOptions ip.1 = true then poseToParams ip.2
         else sol.poseValues ip.1)) := by
    simp only [solvedPoseParams, buildProblem, addPosesToCeresProblem,
      List.map_map]
    rfl
  have hm : findVal id
      (solvedPoseParams (buildProblem data refineOptions mode) sol) =
      some (poseToParams p) := by
    rw [hEq]
    have h0 := findVal_map_assoc
      (g := fun ip : IndexT × Pose =>
        if poseIsConstant mode refineOptions ip.1 = true then poseToParams ip.2
        else sol.poseValues ip.1) hnd hmem
    rw [h0]
    simp [hconst]
  have h1 := findVal_map_assoc
    (g := fun ip : IndexT × Pose =>
      match findVal ip.1
          (solvedPoseParams (buildProblem data refineOptions mode) sol) with
      | some v => (poseFromParams v).getD ip.2
      | none => ip.2) hnd hmem
  rw [updateCameraPoses, h1]
  simp only [hm]
  simp [poseFromParams_poseToParams]

/-- C4: `adjustPartialReconstruction` on an empty reconstruction graph
produces exactly the result of `Adjust` with `BA_REFINE_ALL` on the same
data; on a non-empty graph it runs the restricted mode, in which every
free pose block id is graph-marked and every free intrinsic block id is
graph-marked. -/
theorem adjust_partial_graph (solver : Solver) (data : SfM_Data) :
    (data.graph.isEmpty = true →
      adjustPartialReconstruction solver data =
        Adjust solver data BA_REFINE_ALL)
    ∧ (data.graph.isEmpty = false →
        (∀ b ∈ (buildProblem data BA_REFINE_ALL
            (RefineMode.restricted data.graph)).poseBlocks,
           b.2.2 = false → b.1 ∈ data.graph.markedPoses)
        ∧ (∀ b ∈ (buildProblem data BA_REFINE_ALL
            (RefineMode.restricted data.graph)).intrinsicBlocks,
           b.2.2 = false → b.1 ∈ data.graph.markedIntrinsics)
        ∧ adjustPartialReconstruction solver data =
            AdjustWith solver data BA_REFINE_ALL
              (RefineMode.restricted data.graph)) := by
  constructor
  · intro h
    unfold adjustPartialReconstruction Adjust
    rw [if_pos h]
  · intro h
    refine ⟨?_, ?_, ?_⟩
    · intro b hb hfree
      rcases List.mem_map.mp hb with ⟨iv, hiv, rfl⟩
      by_cases hm : iv.1 ∈ data.graph.markedPoses
      · exact hm
      · exfalso
        simp [poseIsConstant, BA_REFINE_ALL, hm] at hfree
    · intro b hb hfree
      rcases List.mem_map.mp hb with ⟨iv, hiv, rfl⟩
      by_cases hm : iv.1 ∈ data.graph.markedIntrinsics
      · exact hm
      · exfalso
        simp [intrinsicIsConstant, BA_Refine.refineIntrinsics,
          BA_REFINE_ALL, hm] at hfree
    · unfold adjustPartialReconstruction
      rw [if_neg (by simp [h])]

/-- Witness for C4: on `demoData` (empty graph) partial adjustment equals
`Adjust` at `BA_REFINE_ALL`; on `demoDataGraph` (non-empty graph) every
free pose block of the restricted problem is graph-marked. -/
theorem adjust_partial_graph_witness :
    adjustPartialReconstruction yesSolver demoData =
      Adjust yesSolver demoData BA_REFINE_ALL
    ∧ ∀ b ∈ (buildProblem demoDataGraph BA_REFINE_ALL
        (RefineMode.restricted demoDataGraph.graph)).poseBlocks,
        b.2.2 = false → b.1 ∈ demoDataGraph.graph.markedPoses :=
  ⟨(adjust_partial_graph yesSolver demoData).1 (by decide),
   ((adjust_partial_graph yesSolver demoDataGraph).2 (by decide)).1⟩

/-- C5: under partial refinement with a non-empty reconstruction graph,
every pose whose id is not graph-marked is numerically identical after
the call: the pose stored under that id is exactly the pose from before
the call, whatever the solver did. -/
theorem partial_refinement_frames_unmarked_poses (solver : Solver)
    (data : SfM_Data) (id : IndexT) (p : Pose)
    (hnd : (data.poses.map Prod.fst).Nodup)
    (hne : data.graph.isEmpty = false)
    (hmem : (id, p) ∈ data.poses)
    (hS : id ∉ data.graph.markedPoses) :
    findVal id (adjustPartialReconstruction solver data).2.poses = some p := by
  unfold adjustPartialReconstruction
  rw [if_neg (by simp [hne])]
  unfold AdjustWith
  rw [if_neg (by decide)]
  cases hs : solveBA solver
      (buildProblem data BA_REFINE_ALL (RefineMode.restricted data.graph)) with
  | none => exact findVal_of_mem_nodup hnd hmem
  | some sol =>
    have hconst : poseIsConstant (RefineMode.restricted data.graph)
        BA_REFINE_ALL id = true := by
      simp [poseIsConstant, BA_REFINE_ALL, hS]
    exact findVal_updateCameraPoses_constant data BA_REFINE_ALL
      (RefineMode.restricted data.graph) sol hnd hmem hconst

/-- Witness for C5: in `demoDataGraph` the graph marks only pose id 1;
after partial adjustment under a solver that moves every free block, pose
id 0 still holds its original value. -/
theorem partial_refinement_frames_unmarked_poses_witness :
    findVal 0 (adjustPartialReconstruction yesSolver demoDataGraph).2.poses =
      some demoPose :=
  partial_refinement_frames_unmarked_poses yesSolver demoDataGraph 0 demoPose
    (by decide) (by decide) (by decide) (by decide)

/-- An observation whose view, pose id or intrinsic id is unresolvable
produces no residual block. -/
theorem obsToResidual_none_of_unresolvable (data : SfM_Data) (lmId : IndexT)
    (ov : IndexT × Vec2) (h : obsResolvable data ov = false) :
    obsToResidual data lmId ov = none := by
  cases hv : findVal ov.1 data.views with
  | none => simp [obsToResidual, hv]
  | some view =>
    cases hp2 : findVal view.id_pose data.poses with
    | none => simp [obsToResidual, hv, hp2]
    | some pz =>
      cases hi2 : findVal view.id_intrinsic data.intrinsics with
      | none => simp [obsToResidual, hv, hp2, hi2]
      | some intr =>
        exfalso
        unfold obsResolvable at h
        rw [hv] at h
        simp [hp2, hi2] at h

/-- An observation whose resolved intrinsic variant has no residual
implementation produces no residual block. -/
theorem obsToResidual_none_of_noCost (data : SfM_Data) (lmId : IndexT)
    (ov : IndexT × Vec2) (h : obsHasCost data ov = false) :
    obsToResidual data lmId ov = none := by
  cases hv : findVal ov.1 data.views with
  | none =>
    exfalso
    unfold obsHasCost at h
    rw [hv] at h
    simp at h
  | some view =>
    cases hp2 : findVal view.id_pose data.poses with
    | none => simp [obsToResidual, hv, hp2]
    | some pz =>
      cases hi2 : findVal view.id_intrinsic data.intrinsics with
      | none =>
        exfalso
        unfold obsHasCost at h
        rw [hv] at h
        simp [hi2] at h
      | some intr =>
        cases hc : IntrinsicsToCostFunction intr ov.2 with
        | none => simp [obsToResidual, hv, hp2, hi2, hc]
        | some cf =>
          exfalso
          unfold obsHasCost at h
          rw [hv] at h
          simp [hi2, hc] at h

/-- Filtering out observations that yield no residual block leaves the
flattened residual list of every landmark list unchanged. -/
theorem flatMap_filter_dropped (data : SfM_Data) (q : IndexT × Vec2 → Bool)
    (hq : ∀ lmId ov, q ov = false → obsToResidual data lmId ov = none) :
    ∀ L : Hash_Map IndexT Landmark,
      (L.map (fun il =>
        (il.1, { il.2 with obs := il.2.obs.filter q }))).flatMap
        (fun il => il.2.obs.filterMap (obsToResidual data il.1))
      = L.flatMap (fun il => il.2.obs.filterMap (obsToResidual data il.1)) := by
  intro L
  induction L with
  | nil => rfl
  | cons hd t ih =>
    rw [List.map_cons, List.flatMap_cons, List.flatMap_cons, ih]
    have hhd : (hd.2.obs.filter q).filterMap (obsToResidual data hd.1) =
        hd.2.obs.filterMap (obsToResidual data hd.1) :=
      filterMap_filter_of_none _ _ _ (fun ov _ hof => hq hd.1 ov hof)
    exact congrArg (fun x => x ++ _) hhd

/-- Dropping residual-free observations does not change the residual
blocks of the problem. -/
theorem residualBlocks_filterObs (data : SfM_Data) (q : IndexT × Vec2 → Bool)
    (hq : ∀ lmId ov, q ov = false → obsToResidual data lmId ov = none) :
    residualBlocks (filterObsData data q) = residualBlocks data := by
  have hob : obsToResidual (filterObsData data q) = obsToResidual data := rfl
  unfold residualBlocks
  rw [hob]
  have hlm : (filterObsData data q).landmarks =
      data.landmarks.map
        (fun il => (il.1, { il.2 with obs := il.2.obs.filter q })) := rfl
  rw [hlm]
  exact flatMap_filter_dropped data q hq data.landmarks

/-- Dropping residual-free observations yields the identical assembled
problem. -/
theorem buildProblem_filterObs (data : SfM_Data) (q : IndexT × Vec2 → Bool)
    (hq : ∀ lmId ov, q ov = false → obsToResidual data lmId ov = none)
    (refineOptions : BA_Refine) (mode : RefineMode) :
    buildProblem (filterObsData data q) refineOptions mode =
      buildProblem data refineOptions mode := by
  unfold buildProblem
  rw [residualBlocks_filterObs data q hq]
  unfold filterObsData
  simp only [List.map_map]
  rfl

/-- Dropping residual-free observations changes neither the success flag
nor the final poses nor the final intrinsics of `Adjust`. -/
theorem adjust_filterObs (solver : Solver) (data : SfM_Data)
    (q : IndexT × Vec2 → Bool)
    (hq : ∀ lmId ov, q ov = false → obsToResidual data lmId ov = none)
    (refineOptions : BA_Refine) :
    (Adjust solver (filterObsData data q) refineOptions).1 =
      (Adjust solver data refineOptions).1
    ∧ (Adjust solver (filterObsData data q) refineOptions).2.poses =
        (Adjust solver data refineOptions).2.poses
    ∧ (Adjust solver (filterObsData data q) refineOptions).2.intrinsics =
        (Adjust solver data refineOptions).2.intrinsics := by
  unfold Adjust AdjustWith
  by_cases hr : refineOptions = BA_REFINE_NONE
  · rw [if_pos hr, if_pos hr]
    exact ⟨rfl, rfl, rfl⟩
  · rw [if_neg hr, if_neg hr]
    rw [buildProblem_filterObs data q hq]
    cases hs : solveBA solver (buildProblem data refineOptions RefineMode.full) with
    | none => exact ⟨rfl, rfl, rfl⟩
    | some sol => exact ⟨rfl, rfl, rfl⟩

/-- C6: an observation whose view references a pose id or intrinsic id
absent from the provided sets contributes no residual block — it is
dropped from the problem — and the call neither crashes nor changes
outcome: success flag, final poses and final intrinsics are exactly those
obtained from the remaining valid observations alone. -/
theorem unresolvable_observation_dropped (solver : Solver) (data : SfM_Data)
    (refineOptions : BA_Refine) :
    (∀ lmId ov, obsResolvable data ov = false →
      obsToResidual data lmId ov = none)
    ∧ residualBlocks (dropUnresolvable data) = residualBlocks data
    ∧ (Adjust solver (dropUnresolvable data) refineOptions).1 =
        (Adjust solver data refineOptions).1
    ∧ (Adjust solver (dropUnresolvable data) refineOptions).2.poses =
        (Adjust solver data refineOptions).2.poses
    ∧ (Adjust solver (dropUnresolvable data) refineOptions).2.intrinsics =
        (Adjust solver data refineOptions).2.intrinsics := by
  have hq : ∀ lmId ov, obsResolvable data ov = false →
      obsToResidual data lmId ov = none :=
    fun lmId ov h => obsToResidual_none_of_unresolvable data lmId ov h
  have hadj := adjust_filterObs solver data (obsResolvable data) hq refineOptions
  exact ⟨hq, residualBlocks_filterObs data (obsResolvable data) hq,
    hadj.1, hadj.2.1, hadj.2.2⟩

/-- Witness for C6: `demoDataBadObs` holds an observation through the
nonexistent view id 7; that observation yields no residual block, and the
overall adjustment succeeds exactly as on the cleaned data. -/
theorem unresolvable_observation_dropped_witness :
    obsToResidual demoDataBadObs 0 (7, (1, 1)) = none
    ∧ (Adjust yesSolver (dropUnresolvable demoDataBadObs) BA_REFINE_ALL).1 =
        (Adjust yesSolver demoDataBadObs BA_REFINE_ALL).1
    ∧ (Adjust yesSolver demoDataBadObs BA_REFINE_ALL).1 = true :=
  ⟨(unresolvable_observation_dropped yesSolver demoDataBadObs
      BA_REFINE_ALL).1 0 (7, (1, 1)) (by decide),
   (unresolvable_observation_dropped yesSolver demoDataBadObs
      BA_REFINE_ALL).2.2.1,
   by decide⟩

/-- C7: the residual factory yields no cost function for an intrinsic
variant with no known residual implementation; every observation under
such a variant is skipped — it contributes no residual block — and the
run continues: success flag, final poses and final intrinsics equal those
obtained from the remaining observations alone. -/
theorem unsupported_model_skipped (solver : Solver) (data : SfM_Data)
    (refineOptions : BA_Refine) :
    (∀ ps x, IntrinsicsToCostFunction ⟨IntrinsicModel.unknown, ps⟩ x = none)
    ∧ (∀ lmId ov, obsHasCost data ov = false →
        obsToResidual data lmId ov = none)
    ∧ residualBlocks (dropUnsupported data) = residualBlocks data
    ∧ (Adjust solver (dropUnsupported data) refineOptions).1 =
        (Adjust solver data refineOptions).1
    ∧ (Adjust solver (dropUnsupported data) refineOptions).2.poses =
        (Adjust solver data refineOptions).2.poses
    ∧ (Adjust solver (dropUnsupported data) refineOptions).2.intrinsics =
        (Adjust solver data refineOptions).2.intrinsics := by
  have hq : ∀ lmId ov, obsHasCost data ov = false →
      obsToResidual data lmId ov = none :=
    fun lmId ov h => obsToResidual_none_of_noCost data lmId ov h
  have hadj := adjust_filterObs solver data (obsHasCost data) hq refineOptions
  exact ⟨fun ps x => rfl, hq,
    residualBlocks_filterObs data (obsHasCost data) hq,
    hadj.1, hadj.2.1, hadj.2.2⟩

/-- Witness for C7: `demoDataUnknown` observes through view 1 whose
intrinsic has the `unknown` variant; that observation yields no residual
block, and the overall adjustment succeeds exactly as on the cleaned
data. -/
theorem unsupported_model_skipped_witness :
    IntrinsicsToCostFunction ⟨IntrinsicModel.unknown, [5]⟩ (2, 2) = none
    ∧ obsToResidual demoDataUnknown 0 (1, (2, 2)) = none
    ∧ (Adjust yesSolver (dropUnsupported demoDataUnknown) BA_REFINE_ALL).1 =
        (Adjust yesSolver demoDataUnknown BA_REFINE_ALL).1
    ∧ (Adjust yesSolver demoDataUnknown BA_REFINE_ALL).1 = true :=
  ⟨(unsupported_model_skipped yesSolver demoDataUnknown BA_REFINE_ALL).1
      [5] (2, 2),
   (unsupported_model_skipped yesSolver demoDataUnknown BA_REFINE_ALL).2.1
      0 (1, (2, 2)) (by decide),
   (unsupported_model_skipped yesSolver demoDataUnknown
      BA_REFINE_ALL).2.2.2.1,
   by decide⟩

/-- Every residual block references a pose id and an intrinsic id that
resolve in the provided sets. -/
theorem residual_ids_present (data : SfM_Data) (rb : ResidualBlock)
    (hrb : rb ∈ residualBlocks data) :
    (findVal rb.id_pose data.poses).isSome = true
    ∧ (findVal rb.id_intrinsic data.intrinsics).isSome = true := by
  unfold residualBlocks at hrb
  rcases List.mem_flatMap.mp hrb with ⟨il, hil, hmem⟩
  rcases List.mem_filterMap.mp hmem with ⟨ov, hov, hres⟩
  unfold obsToResidual at hres
  split at hres
  · cases hres
  · split at hres
    · cases hres
    · split at hres
      · cases hres
      · split at hres
        · cases hres
        · cases hres
          constructor <;> simp_all

/-- C8: after parameter extraction, the pose mapping and the intrinsic
mapping have pairwise-distinct ids, and every pose id and intrinsic id
referenced by any surviving observation (residual block) occurs exactly
once in its respective mapping. -/
theorem mapping_unique_per_referenced_id (data : SfM_Data)
    (hp : (data.poses.map Prod.fst).Nodup)
    (hi : (data.intrinsics.map Prod.fst).Nodup) :
    ((addPosesToCeresProblem data.poses).map Prod.fst).Nodup
    ∧ ((addIntrinsicsToCeresProblem data).map Prod.fst).Nodup
    ∧ ∀ rb ∈ residualBlocks data,
        ((addPosesToCeresProblem data.poses).map Prod.fst).count rb.id_pose = 1
        ∧ ((addIntrinsicsToCeresProblem data).map Prod.fst).count
            rb.id_intrinsic = 1 := by
  have hpk : (addPosesToCeresProblem data.poses).map Prod.fst =
      data.poses.map Prod.fst := by
    unfold addPosesToCeresProblem
    rw [List.map_map]
    rfl
  have hik : (addIntrinsicsToCeresProblem data).map Prod.fst =
      data.intrinsics.map Prod.fst := by
    unfold addIntrinsicsToCeresProblem
    rw [List.map_map]
    rfl
  refine ⟨hpk ▸ hp, hik ▸ hi, ?_⟩
  intro rb hrb
  have hids := residual_ids_present data rb hrb
  constructor
  · rw [hpk]
    exact List.count_eq_one_of_mem hp (findVal_isSome_mem hids.1)
  · rw [hik]
    exact List.count_eq_one_of_mem hi (findVal_isSome_mem hids.2)

/-- Witness for C8: on `demoDataGraph` the extracted pose mapping has
distinct ids and each residual block's pose id and intrinsic id occurs
exactly once in its mapping. -/
theorem mapping_unique_per_referenced_id_witness :
    ((addPosesToCeresProblem demoDataGraph.poses).map Prod.fst).Nodup
    ∧ ∀ rb ∈ residualBlocks demoDataGraph,
        ((addPosesToCeresProblem demoDataGraph.poses).map Prod.fst).count
            rb.id_pose = 1
        ∧ ((addIntrinsicsToCeresProblem demoDataGraph).map Prod.fst).count
            rb.id_intrinsic = 1 :=
  ⟨(mapping_unique_per_referenced_id demoDataGraph (by decide) (by decide)).1,
   (mapping_unique_per_referenced_id demoDataGraph
      (by decide) (by decide)).2.2⟩

/-- C9: write-back is the inverse of extraction — deserializing a pose
parameter vector undoes the serialization, and integrating the unmodified
extracted mappings restores every pose and every intrinsic exactly. -/
theorem writeback_roundtrip (data : SfM_Data)
    (hp : (data.poses.map Prod.fst).Nodup)
    (hi : (data.intrinsics.map Prod.fst).Nodup) :
    (∀ p : Pose, poseFromParams (poseToParams p) = some p)
    ∧ updateCameraPoses (addPosesToCeresProblem data.poses) data.poses =
        data.poses
    ∧ updateCameraIntrinsics (addIntrinsicsToCeresProblem data)
        data.intrinsics = data.intrinsics := by
  refine ⟨poseFromParams_poseToParams, ?_, ?_⟩
  · unfold updateCameraPoses
    have h : ∀ ip ∈ data.poses,
        (ip.1,
         match findVal ip.1 (addPosesToCeresProblem data.poses) with
         | some v => (poseFromParams v).getD ip.2
         | none => ip.2) = ip := by
      intro ip hip
      obtain ⟨id, p⟩ := ip
      have h0 := findVal_map_assoc
        (g := fun ip : IndexT × Pose => poseToParams ip.2) hp hip
      unfold addPosesToCeresProblem
      rw [h0]
      simp [poseFromParams_poseToParams]
    rw [List.map_congr_left h]
    simp
  · unfold updateCameraIntrinsics
    have h : ∀ ii ∈ data.intrinsics,
        (ii.1,
         match findVal ii.1 (addIntrinsicsToCeresProblem data) with
         | some v => { ii.2 with params := v }
         | none => ii.2) = ii := by
      intro ii hii
      obtain ⟨id, it⟩ := ii
      have h0 := findVal_map_assoc
        (g := fun ii : IndexT × Intrinsic => ii.2.params) hi hii
      unfold addIntrinsicsToCeresProblem
      rw [h0]
    rw [List.map_congr_left h]
    simp

/-- Witness for C9: integrating the unmodified extracted mappings of
`demoDataGraph` restores its poses and intrinsics exactly. -/
theorem writeback_roundtrip_witness :
    updateCameraPoses (addPosesToCeresProblem demoDataGraph.poses)
        demoDataGraph.poses = demoDataGraph.poses
    ∧ updateCameraIntrinsics (addIntrinsicsToCeresProblem demoDataGraph)
        demoDataGraph.intrinsics = demoDataGraph.intrinsics :=
  ⟨(writeback_roundtrip demoDataGraph (by decide) (by decide)).2.1,
   (writeback_roundtrip demoDataGraph (by decide) (by decide)).2.2⟩

end BACeres
